import Mathlib

/-!
Verification of `add_files_to_xcode.py` (pardeike/MeTube).

The script is embedded shallowly: the ambient environment is a platform
identifier (the value of `sys.platform`) together with a filesystem,
modelled as a map from path strings to `Option EntryKind` (`none` means
no entry of that name exists; `os.path.exists` is true for any entry,
whatever its kind).  A run of `main()` is modelled as the finite trace
of externally visible effects it performs — lines printed to standard
output and `os.path.exists` queries — together with the terminal state
it reaches.  The effect vocabulary also contains file mutations and
process invocations, so that "the script never writes / never spawns a
process" are contentful statements about the trace rather than
artifacts of the modelling.
-/

/-- Kind of a filesystem entry: a regular file or a directory. -/
inductive EntryKind where
  | file
  | directory
deriving DecidableEq, Repr

/-- A filesystem: each path name is absent (`none`) or present with a kind. -/
abbrev FS := String → Option EntryKind

/-- Embedding of `os.path.exists`: true when an entry of any kind exists. -/
def pathExists (fs : FS) (p : String) : Bool :=
  (fs p).isSome

/-- Externally visible effects a run of the script could perform.
`printLine` and `queryExists` are the only ones the code actually uses;
the mutation and process constructors exist so that their absence from
every trace is a provable property. -/
inductive Effect where
  | printLine (line : String)
  | queryExists (path : String)
  | writeFile (path : String) (contents : String)
  | deleteFile (path : String)
  | renameFile (src : String) (dst : String)
  | runProcess (cmd : List String)
deriving DecidableEq, Repr

/-- The three terminal states of `main()`. -/
inductive Terminal where
  | instructionsOnly
  | missingProject
  | reportEmitted
deriving DecidableEq, Repr

/-- Result of a run: the effect trace and the terminal state reached. -/
structure RunResult where
  trace : List Effect
  terminal : Terminal
deriving DecidableEq, Repr

/-- `NEW_FILES` from the script: the fixed ordered manifest of paths. -/
def NEW_FILES : List String := [
  "MeTube/Models/Persistence/VideoEntity.swift",
  "MeTube/Models/Persistence/ChannelEntity.swift",
  "MeTube/Models/Persistence/StatusEntity.swift",
  "MeTube/Repositories/VideoRepository.swift",
  "MeTube/Repositories/StatusRepository.swift",
  "MeTube/Repositories/ChannelRepository.swift",
  "MeTube/Services/Sync/HubSyncManager.swift",
  "MeTube/Services/Sync/StatusSyncManager.swift",
  "MeTube/Models/ModelConverters.swift"
]

/-- The banner line `"=" * 60`. -/
def banner : String :=
  String.mk (List.replicate 60 '=')

/-- The seven lines printed unconditionally at the top of `main()`. -/
def preamble : List Effect := [
  .printLine banner,
  .printLine "MeTube Xcode Project File Adder",
  .printLine banner,
  .printLine "",
  .printLine "This script needs to be run on a Mac with Xcode installed.",
  .printLine "It will add the new Swift files to MeTube.xcodeproj",
  .printLine ""
]

/-- The report line for one manifest entry:
`f"  {exists} {file}"` where `exists` is `"✓"` or `"✗"`. -/
def markerLine (fs : FS) (file : String) : String :=
  "  " ++ (if pathExists fs file then "✓" else "✗") ++ " " ++ file

/-- Embedding of `main()`: the effect trace and terminal state, as a
function of the platform identifier and the filesystem. -/
def run (platform : String) (fs : FS) : RunResult :=
  if platform ≠ "darwin" then
    { trace := preamble ++ [
        .printLine "⚠️  This script should be run on macOS with Xcode installed.",
        .printLine "",
        .printLine "Manual steps required:",
        .printLine "1. Open MeTube.xcodeproj in Xcode",
        .printLine "2. Right-click on each folder and select \x27Add Files to MeTube...\x27",
        .printLine "3. Add these new files:"] ++
        NEW_FILES.map (fun file => .printLine ("   - " ++ file)) ++
        [.printLine ""],
      terminal := .instructionsOnly }
  else if !pathExists fs "MeTube.xcodeproj" then
    { trace := preamble ++ [
        .queryExists "MeTube.xcodeproj",
        .printLine "❌ MeTube.xcodeproj not found in current directory",
        .printLine "Please run this script from the repository root"],
      terminal := .missingProject }
  else
    { trace := preamble ++ [
        .queryExists "MeTube.xcodeproj",
        .printLine "The following files will be added to the Xcode project:"] ++
        (NEW_FILES.map (fun file =>
          [Effect.queryExists file, Effect.printLine (markerLine fs file)])).flatten ++
        [.printLine "",
         .printLine "To add these files to Xcode:",
         .printLine "1. Open MeTube.xcodeproj in Xcode",
         .printLine "2. In the Project Navigator, locate these folders:",
         .printLine "   - Models (add Persistence folder with entities)",
         .printLine "   - Services (add Sync folder with managers)",
         .printLine "   - Create \x27Repositories\x27 group if needed",
         .printLine "3. Drag and drop or use \x27Add Files to MeTube...\x27",
         .printLine "4. Ensure files are added to the MeTube target",
         .printLine "",
         .printLine "Or use a tool like xcodegen to regenerate the project file"],
      terminal := .reportEmitted }

/-- The line printed by an effect, if it is a print. -/
def printed : Effect → Option String
  | .printLine s => some s
  | _ => none

/-- The path queried by an effect, if it is an existence query. -/
def queried : Effect → Option String
  | .queryExists p => some p
  | _ => none

/-- The standard-output lines of a run, in order. -/
def output (platform : String) (fs : FS) : List String :=
  (run platform fs).trace.filterMap printed

/-- The `os.path.exists` queries of a run, in order. -/
def queries (platform : String) (fs : FS) : List String :=
  (run platform fs).trace.filterMap queried

/-- An effect is harmless when it is a print or an existence query. -/
def harmless : Effect → Bool
  | .printLine _ => true
  | .queryExists _ => true
  | _ => false

/-- Extracts a manifest item from a manual-instructions listing line
`"   - " ++ file`, and `none` from any other line shape. -/
def stripItem (l : String) : Option String :=
  if l.data.take 5 = [' ', ' ', ' ', '-', ' '] then
    some (String.mk (l.data.drop 5))
  else none

/-- The output lines printed before the per-file report in the
report-emitted branch. -/
def reportPre : List String := [
  banner,
  "MeTube Xcode Project File Adder",
  banner,
  "",
  "This script needs to be run on a Mac with Xcode installed.",
  "It will add the new Swift files to MeTube.xcodeproj",
  "",
  "The following files will be added to the Xcode project:"
]

/-- The output lines printed after the per-file report in the
report-emitted branch. -/
def reportPost : List String := [
  "",
  "To add these files to Xcode:",
  "1. Open MeTube.xcodeproj in Xcode",
  "2. In the Project Navigator, locate these folders:",
  "   - Models (add Persistence folder with entities)",
  "   - Services (add Sync folder with managers)",
  "   - Create \x27Repositories\x27 group if needed",
  "3. Drag and drop or use \x27Add Files to MeTube...\x27",
  "4. Ensure files are added to the MeTube target",
  "",
  "Or use a tool like xcodegen to regenerate the project file"
]

/-- Two report-shaped lines are equal exactly when their markers and their
file parts agree. -/
lemma marker_cancel {m1 m2 a b : String}
    (hm1 : m1 = "✓" ∨ m1 = "✗") (hm2 : m2 = "✓" ∨ m2 = "✗")
    (h : "  " ++ m1 ++ " " ++ a = "  " ++ m2 ++ " " ++ b) :
    m1 = m2 ∧ a = b := by
  have hd := congrArg String.data h
  rcases hm1 with rfl | rfl <;> rcases hm2 with rfl | rfl <;>
      simp only [String.data_append] at hd <;> simp at hd <;>
    exact ⟨rfl, String.ext hd⟩

/-- The marker of a report line is one of the two marker glyphs. -/
lemma marker_is_glyph (fs : FS) (file : String) :
    (if pathExists fs file then "✓" else "✗") = "✓" ∨
    (if pathExists fs file then "✓" else "✗") = "✗" := by
  cases pathExists fs file <;> simp

/-- Distinct manifest entries produce distinct report lines. -/
lemma markerLine_inj (fs : FS) : Function.Injective (markerLine fs) := by
  intro a b h
  exact (marker_cancel (marker_is_glyph fs a) (marker_is_glyph fs b) h).2

/-- Report lines of the interleaved query/print block, in order. -/
lemma filterMap_printed_pairs (fs : FS) (l : List String) :
    (l.map (List.filterMap printed ∘ fun file =>
      [Effect.queryExists file, Effect.printLine (markerLine fs file)])).flatten
      = l.map (markerLine fs) := by
  induction l with
  | nil => rfl
  | cons x xs ih => simp only [List.map_cons, List.flatten_cons, ih, Function.comp]; simp [printed]

/-- Queried paths of the interleaved query/print block, in order. -/
lemma filterMap_queried_pairs (fs : FS) (l : List String) :
    (l.map (List.filterMap queried ∘ fun file =>
      [Effect.queryExists file, Effect.printLine (markerLine fs file)])).flatten
      = l := by
  induction l with
  | nil => rfl
  | cons x xs ih => simp only [List.map_cons, List.flatten_cons, ih, Function.comp]; simp [queried]

/-- Printed lines of a mapped print-only block. -/
lemma filterMap_printed_printLine (g : String → String) (l : List String) :
    List.filterMap (printed ∘ fun s => Effect.printLine (g s)) l = l.map g := by
  induction l with
  | nil => rfl
  | cons x xs ih => simp [printed, ih]

/-- A mapped print-only block performs no query. -/
lemma filterMap_queried_printLine (g : String → String) (l : List String) :
    List.filterMap (queried ∘ fun s => Effect.printLine (g s)) l = [] := by
  induction l with
  | nil => rfl
  | cons x xs ih => simp [queried, ih]

/-- On darwin with the project present, the output decomposes into a fixed
prefix, the per-file report lines in manifest order, and a fixed suffix. -/
lemma output_report (fs : FS) (h : pathExists fs "MeTube.xcodeproj" = true) :
    output "darwin" fs = reportPre ++ NEW_FILES.map (markerLine fs) ++ reportPost := by
  unfold output run
  simp [h, preamble, printed, reportPre, reportPost, filterMap_printed_pairs fs NEW_FILES]

/-- On darwin with the project absent, the output is a fixed list of lines. -/
lemma output_missing (fs : FS) (h : pathExists fs "MeTube.xcodeproj" = false) :
    output "darwin" fs = [
      banner,
      "MeTube Xcode Project File Adder",
      banner,
      "",
      "This script needs to be run on a Mac with Xcode installed.",
      "It will add the new Swift files to MeTube.xcodeproj",
      "",
      "❌ MeTube.xcodeproj not found in current directory",
      "Please run this script from the repository root"] := by
  unfold output run
  simp [h, preamble, printed]

/-- Off darwin, the output is the fixed manual-instructions listing. -/
lemma output_instructions (platform : String) (fs : FS) (h : platform ≠ "darwin") :
    output platform fs = [
      banner,
      "MeTube Xcode Project File Adder",
      banner,
      "",
      "This script needs to be run on a Mac with Xcode installed.",
      "It will add the new Swift files to MeTube.xcodeproj",
      "",
      "⚠️  This script should be run on macOS with Xcode installed.",
      "",
      "Manual steps required:",
      "1. Open MeTube.xcodeproj in Xcode",
      "2. Right-click on each folder and select \x27Add Files to MeTube...\x27",
      "3. Add these new files:"] ++
      NEW_FILES.map (fun file => "   - " ++ file) ++ [""] := by
  unfold output run
  simp [h, preamble, printed, filterMap_printed_printLine]

/-- Off darwin, no existence query is performed. -/
lemma queries_instructions (platform : String) (fs : FS) (h : platform ≠ "darwin") :
    queries platform fs = [] := by
  unfold queries run
  simp [h, preamble, queried, filterMap_queried_printLine]

/-- On darwin with the project absent, the single query is the project name. -/
lemma queries_missing (fs : FS) (h : pathExists fs "MeTube.xcodeproj" = false) :
    queries "darwin" fs = ["MeTube.xcodeproj"] := by
  unfold queries run
  simp [h, preamble, queried]

/-- On darwin with the project present, the queries are the project name
followed by every manifest entry, in order. -/
lemma queries_report (fs : FS) (h : pathExists fs "MeTube.xcodeproj" = true) :
    queries "darwin" fs = "MeTube.xcodeproj" :: NEW_FILES := by
  unfold queries run
  simp [h, preamble, queried, filterMap_queried_pairs fs NEW_FILES]

/-- C1: the terminal state is exactly one of three, determined by the two
boolean conditions (platform is darwin; an entry named MeTube.xcodeproj
exists).  `run` is a total Lean function, so every environment reaches
its terminal state after a finite trace — there is no looping or
retrying. -/
theorem C1_terminal_states (platform : String) (fs : FS) :
    ((run platform fs).terminal = .instructionsOnly ↔ platform ≠ "darwin") ∧
    ((run platform fs).terminal = .missingProject ↔
      platform = "darwin" ∧ pathExists fs "MeTube.xcodeproj" = false) ∧
    ((run platform fs).terminal = .reportEmitted ↔
      platform = "darwin" ∧ pathExists fs "MeTube.xcodeproj" = true) := by
  unfold run
  by_cases hp : platform = "darwin" <;>
    cases hx : pathExists fs "MeTube.xcodeproj" <;>
      simp [hp, hx]

/-- Witness for C1 at a concrete environment. -/
theorem C1_terminal_states_witness :
    (run "linux" (fun _ => none)).terminal = .instructionsOnly :=
  ((C1_terminal_states "linux" (fun _ => none)).1).mpr (by decide)

/-- C5: on every branch `main()` terminates normally (the embedding is a
total function) and output is produced: the title line of the banner is
always printed, so the output is never empty. -/
theorem C5_always_output (platform : String) (fs : FS) :
    "MeTube Xcode Project File Adder" ∈ output platform fs ∧
    output platform fs ≠ [] := by
  unfold output run preamble
  by_cases hp : platform = "darwin" <;>
    cases hx : pathExists fs "MeTube.xcodeproj" <;>
      simp [hp, hx, printed]

/-- A report-shaped line with either marker and a manifest entry as its file
part occurs in neither the fixed prefix nor the fixed suffix of the report. -/
lemma count_report_fixed_zero (m file : String)
    (hm : m = "✓" ∨ m = "✗") (hf : file ∈ NEW_FILES) :
    reportPre.count ("  " ++ m ++ " " ++ file) = 0 ∧
    reportPost.count ("  " ++ m ++ " " ++ file) = 0 := by
  simp only [NEW_FILES, List.mem_cons, List.not_mem_nil, or_false] at hf
  rcases hm with rfl | rfl <;>
    rcases hf with rfl | rfl | rfl | rfl | rfl | rfl | rfl | rfl | rfl <;>
      exact ⟨by decide, by decide⟩

/-- The correctly marked report line of a manifest entry occurs in neither
the fixed prefix nor the fixed suffix of the report. -/
lemma count_fixed_markerLine_zero (fs : FS) (file : String) (hf : file ∈ NEW_FILES) :
    reportPre.count (markerLine fs file) = 0 ∧
    reportPost.count (markerLine fs file) = 0 := by
  have h := count_report_fixed_zero _ file (marker_is_glyph fs file) hf
  unfold markerLine
  exact h

/-- The wrongly marked variant of a manifest entry's report line occurs in
neither the fixed prefix nor the fixed suffix of the report. -/
lemma count_fixed_wrong_zero (fs : FS) (file : String) (hf : file ∈ NEW_FILES) :
    reportPre.count ("  " ++ (if pathExists fs file then "✗" else "✓") ++ " " ++ file) = 0 ∧
    reportPost.count ("  " ++ (if pathExists fs file then "✗" else "✓") ++ " " ++ file) = 0 :=
  count_report_fixed_zero _ file (by cases pathExists fs file <;> simp) hf

/-- The wrongly marked variant of a file's report line is not among the
per-file report lines. -/
lemma wrong_marker_not_mem (fs : FS) (file : String) :
    ("  " ++ (if pathExists fs file then "✗" else "✓") ++ " " ++ file) ∉
      NEW_FILES.map (markerLine fs) := by
  intro hmem
  rcases List.mem_map.mp hmem with ⟨g, _, he⟩
  unfold markerLine at he
  have hc := marker_cancel (marker_is_glyph fs g)
    (by cases pathExists fs file <;> simp) he
  rcases hc with ⟨hm, rfl⟩
  cases hpe : pathExists fs g <;> rw [hpe] at hm <;> simp at hm

/-- C2: on darwin with the project present, the output contains exactly one
report line per manifest entry, carrying the check marker when
`os.path.exists` is true for that path and the cross marker otherwise
(the wrongly marked variant occurs nowhere in the output). -/
theorem C2_report_marks (fs : FS) (h : pathExists fs "MeTube.xcodeproj" = true) :
    ∀ file ∈ NEW_FILES,
      (output "darwin" fs).count (markerLine fs file) = 1 ∧
      (output "darwin" fs).count
        ("  " ++ (if pathExists fs file then "✗" else "✓") ++ " " ++ file) = 0 := by
  intro file hf
  rw [output_report fs h]
  constructor
  · have hz := count_fixed_markerLine_zero fs file hf
    have h1 : (NEW_FILES.map (markerLine fs)).count (markerLine fs file) = 1 := by
      rw [List.count_map_of_injective _ _ (markerLine_inj fs)]
      exact List.count_eq_one_of_mem (by decide) hf
    rw [List.count_append, List.count_append, hz.1, hz.2, h1]
  · have hz := count_fixed_wrong_zero fs file hf
    have h1 : (NEW_FILES.map (markerLine fs)).count
        ("  " ++ (if pathExists fs file then "✗" else "✓") ++ " " ++ file) = 0 :=
      List.count_eq_zero.mpr (wrong_marker_not_mem fs file)
    rw [List.count_append, List.count_append, hz.1, hz.2, h1]

/-- C3: off darwin, every manifest entry appears in the output preceded by
the listing marker, and no existence query at all is performed. -/
theorem C3_instructions (platform : String) (fs : FS) (h : platform ≠ "darwin") :
    (∀ file ∈ NEW_FILES, ("   - " ++ file) ∈ output platform fs) ∧
    queries platform fs = [] := by
  refine ⟨fun file hf => ?_, queries_instructions platform fs h⟩
  rw [output_instructions platform fs h]
  exact List.mem_append.mpr (Or.inl (List.mem_append.mpr
    (Or.inr (List.mem_map_of_mem _ hf))))

/-- C4: on darwin with the project absent, the output contains the
not-found message and no report line (with either marker) for any
manifest entry. -/
theorem C4_missing (fs : FS) (h : pathExists fs "MeTube.xcodeproj" = false) :
    "❌ MeTube.xcodeproj not found in current directory" ∈ output "darwin" fs ∧
    ∀ file ∈ NEW_FILES, ∀ m : String, m = "✓" ∨ m = "✗" →
      ("  " ++ m ++ " " ++ file) ∉ output "darwin" fs := by
  rw [output_missing fs h]
  refine ⟨by decide, fun file hf m hm => ?_⟩
  simp only [NEW_FILES, List.mem_cons, List.not_mem_nil, or_false] at hf
  rcases hm with rfl | rfl <;>
    rcases hf with rfl | rfl | rfl | rfl | rfl | rfl | rfl | rfl | rfl <;>
      decide

/-- C6: off darwin, the manifest items printed in the listing are exactly
`NEW_FILES` in declared order — no sorting, deduplication, omission or
insertion (no other output line has the listing-item shape). -/
theorem C6_manifest_order (platform : String) (fs : FS) (h : platform ≠ "darwin") :
    (output platform fs).filterMap stripItem = NEW_FILES := by
  rw [output_instructions platform fs h]
  decide

/-- Every pair block of the per-file report consists of harmless effects. -/
lemma all_harmless_pairs (fs : FS) (l : List String) :
    ((l.map (fun file =>
      [Effect.queryExists file, Effect.printLine (markerLine fs file)])).flatten).all
        harmless = true := by
  induction l with
  | nil => rfl
  | cons x xs ih =>
      simp only [List.map_cons, List.flatten_cons, List.all_append, ih]
      simp [harmless]

/-- Every effect of every run is a print or an existence query. -/
lemma trace_harmless (platform : String) (fs : FS) :
    ((run platform fs).trace).all harmless = true := by
  unfold run
  by_cases hp : platform = "darwin" <;>
    cases hx : pathExists fs "MeTube.xcodeproj" <;>
      simp [hp, hx, preamble, harmless, all_harmless_pairs]

/-- C7: the filesystem is left unchanged on every branch: no effect of any
run is a file creation/write, deletion, or rename (only prints and
existence queries occur, so a run is idempotent on filesystem state). -/
theorem C7_no_writes (platform : String) (fs : FS) :
    ∀ e ∈ (run platform fs).trace,
      (∀ p c, e ≠ .writeFile p c) ∧ (∀ p, e ≠ .deleteFile p) ∧
      (∀ p q, e ≠ .renameFile p q) := by
  intro e he
  have h := List.all_eq_true.mp (trace_harmless platform fs) e he
  cases e <;> simp [harmless] at h ⊢

/-- C10: although `subprocess` is imported, no run ever invokes an external
process: every effect is a print to standard output or a read-only
existence query. -/
theorem C10_no_subprocess (platform : String) (fs : FS) :
    ∀ e ∈ (run platform fs).trace,
      (∀ cmd, e ≠ .runProcess cmd) ∧
      ((∃ s, e = .printLine s) ∨ (∃ p, e = .queryExists p)) := by
  intro e he
  have h := List.all_eq_true.mp (trace_harmless platform fs) e he
  cases e <;> simp [harmless] at h ⊢

/-- C8: determinism/noninterference — two runs on the same platform whose
filesystems give the same answer to every existence query the first run
performs produce identical output. -/
theorem C8_deterministic (platform : String) (fs1 fs2 : FS)
    (h : ∀ p ∈ queries platform fs1, pathExists fs1 p = pathExists fs2 p) :
    output platform fs1 = output platform fs2 := by
  by_cases hp : platform = "darwin"
  · subst hp
    cases hx : pathExists fs1 "MeTube.xcodeproj"
    · have hq := queries_missing fs1 hx
      have h2 : pathExists fs2 "MeTube.xcodeproj" = false := by
        have hh := h "MeTube.xcodeproj" (by rw [hq]; exact List.mem_singleton_self _)
        rw [hx] at hh
        exact hh.symm
      rw [output_missing fs1 hx, output_missing fs2 h2]
    · have hq := queries_report fs1 hx
      have hproj := h "MeTube.xcodeproj" (by rw [hq]; exact List.mem_cons_self _ _)
      have h2 : pathExists fs2 "MeTube.xcodeproj" = true := by rw [← hproj]; exact hx
      rw [output_report fs1 hx, output_report fs2 h2]
      have hmap : NEW_FILES.map (markerLine fs1) = NEW_FILES.map (markerLine fs2) := by
        apply List.map_congr_left
        intro f hf
        have hfq : f ∈ queries "darwin" fs1 := by
          rw [hq]
          exact List.mem_cons_of_mem _ hf
        have he := h f hfq
        unfold markerLine
        rw [he]
      rw [hmap]
  · rw [output_instructions platform fs1 hp, output_instructions platform fs2 hp]

/-- C9: `os.path.exists` is satisfied by any entry kind, so on darwin a
regular file named `MeTube.xcodeproj` (not a directory) already routes the
run to the report-emitted state instead of missing-project. -/
theorem C9_file_entry_suffices (fs : FS) (h : fs "MeTube.xcodeproj" = some EntryKind.file) :
    (run "darwin" fs).terminal = .reportEmitted := by
  have hx : pathExists fs "MeTube.xcodeproj" = true := by
    unfold pathExists
    rw [h]
    rfl
  unfold run
  simp [hx]

/-- Witness filesystem: completely empty working directory. -/
def fsEmpty : FS := fun _ => none

/-- Witness filesystem: the project directory and every manifest file
are present. -/
def fsAll : FS := fun p =>
  if p = "MeTube.xcodeproj" then some EntryKind.directory
  else if p ∈ NEW_FILES then some EntryKind.file
  else none

/-- Witness filesystem: `fsAll` plus one extra file the script never
queries. -/
def fsAllPlus : FS := fun p =>
  if p = "extra.txt" then some EntryKind.file else fsAll p

/-- Witness filesystem: an entry named like the project exists but is a
regular file, not a directory. -/
def fsProjOnly : FS := fun p =>
  if p = "MeTube.xcodeproj" then some EntryKind.file else none

/-- Witness for C2: on darwin over `fsAll` every manifest entry is reported
exactly once with the check marker and never with the cross marker. -/
theorem C2_report_marks_witness :
    pathExists fsAll "MeTube.xcodeproj" = true ∧
    ∀ file ∈ NEW_FILES,
      (output "darwin" fsAll).count (markerLine fsAll file) = 1 ∧
      (output "darwin" fsAll).count
        ("  " ++ (if pathExists fsAll file then "✗" else "✓") ++ " " ++ file) = 0 :=
  ⟨by decide, C2_report_marks fsAll (by decide)⟩

/-- Witness for C3 on the platform identifier "linux". -/
theorem C3_instructions_witness :
    ("linux" : String) ≠ "darwin" ∧
    ((∀ file ∈ NEW_FILES, ("   - " ++ file) ∈ output "linux" fsEmpty) ∧
      queries "linux" fsEmpty = []) :=
  ⟨by decide, C3_instructions "linux" fsEmpty (by decide)⟩

/-- Witness for C4 over the empty working directory. -/
theorem C4_missing_witness :
    pathExists fsEmpty "MeTube.xcodeproj" = false ∧
    ("❌ MeTube.xcodeproj not found in current directory" ∈ output "darwin" fsEmpty ∧
      ∀ file ∈ NEW_FILES, ∀ m : String, m = "✓" ∨ m = "✗" →
        ("  " ++ m ++ " " ++ file) ∉ output "darwin" fsEmpty) :=
  ⟨by decide, C4_missing fsEmpty (by decide)⟩

/-- Witness for C6 on the platform identifier "linux". -/
theorem C6_manifest_order_witness :
    ("linux" : String) ≠ "darwin" ∧
    (output "linux" fsEmpty).filterMap stripItem = NEW_FILES :=
  ⟨by decide, C6_manifest_order "linux" fsEmpty (by decide)⟩

/-- Witness for C7 at a concrete effect of a concrete darwin run. -/
theorem C7_no_writes_witness :
    Effect.printLine banner ∈ (run "darwin" fsAll).trace ∧
    ((∀ p c, Effect.printLine banner ≠ .writeFile p c) ∧
      (∀ p, Effect.printLine banner ≠ .deleteFile p) ∧
      (∀ p q, Effect.printLine banner ≠ .renameFile p q)) :=
  ⟨by decide, C7_no_writes "darwin" fsAll (.printLine banner) (by decide)⟩

/-- Witness for C8: `fsAllPlus` differs from `fsAll` on an unqueried path
yet answers every performed query identically, so the outputs coincide. -/
theorem C8_deterministic_witness :
    (∀ p ∈ queries "darwin" fsAll, pathExists fsAll p = pathExists fsAllPlus p) ∧
    output "darwin" fsAll = output "darwin" fsAllPlus :=
  ⟨by decide, C8_deterministic "darwin" fsAll fsAllPlus (by decide)⟩

/-- Witness for C9: a regular-file entry named `MeTube.xcodeproj` reaches
the report-emitted state. -/
theorem C9_file_entry_suffices_witness :
    fsProjOnly "MeTube.xcodeproj" = some EntryKind.file ∧
    (run "darwin" fsProjOnly).terminal = .reportEmitted :=
  ⟨by decide, C9_file_entry_suffices fsProjOnly (by decide)⟩

/-- Witness for C10 at a concrete effect of a concrete darwin run. -/
theorem C10_no_subprocess_witness :
    Effect.queryExists "MeTube.xcodeproj" ∈ (run "darwin" fsProjOnly).trace ∧
    ((∀ cmd, Effect.queryExists "MeTube.xcodeproj" ≠ .runProcess cmd) ∧
      ((∃ s, Effect.queryExists "MeTube.xcodeproj" = .printLine s) ∨
        (∃ p, Effect.queryExists "MeTube.xcodeproj" = .queryExists p))) :=
  ⟨by decide, C10_no_subprocess "darwin" fsProjOnly
    (.queryExists "MeTube.xcodeproj") (by decide)⟩
